import Mathlib

/-!
Verification development for the reading-list-api metadata-extraction
pipeline.  Go strings are embedded as lists of characters (`Str`), Go
`int` as `Int`, and fallible Go functions as `Except`/`Option` values.
External collaborators (the Exa / Gemini providers, `url.Parse`, the
SQL store) are embedded at their boundary: provider responses and the
parsed hostname are explicit inputs, and the store is a list of
articles.
-/

deriving instance DecidableEq for Except

namespace ReadingList

/-- Go strings, embedded as lists of characters. -/
abbrev Str := List Char

/-- Whitespace predicate used by `strings.TrimSpace` (ASCII space classes). -/
def goIsSpace (c : Char) : Bool :=
  c == ' ' || c == '\t' || c == '\n' || c == '\r' || c == '\x0b' || c == '\x0c'

/-- Embedding of Go `strings.TrimSpace`: drop whitespace from both ends. -/
def goTrimSpace (s : Str) : Str :=
  ((s.dropWhile goIsSpace).reverse.dropWhile goIsSpace).reverse

/-- Embedding of Go `strings.ToLower` (ASCII case folding). -/
def goToLower (s : Str) : Str :=
  s.map Char.toLower

/-- Embedding of Go `strings.Split` on a single separator character:
`goSplit sep s` always returns at least one (possibly empty) part. -/
def goSplit (sep : Char) : Str → List Str
  | [] => [[]]
  | c :: rest =>
    match goSplit sep rest with
    | [] => [[]]
    | p :: ps => if c == sep then [] :: p :: ps else (c :: p) :: ps

/-- First index of character `c` in `s`, or `none`. -/
def goIndexFrom (c : Char) : Str → Option Nat
  | [] => none
  | x :: xs => if x == c then some 0 else (goIndexFrom c xs).map (· + 1)

/-- Embedding of Go `strings.Index(s, c)` for a one-character needle:
first byte index of `c`, or `-1`. -/
def goIndex (s : Str) (c : Char) : Int :=
  match goIndexFrom c s with
  | none => -1
  | some n => (n : Int)

/-- Embedding of Go `strings.LastIndex(s, c)` for a one-character needle:
last byte index of `c`, or `-1`. -/
def goLastIndex (s : Str) (c : Char) : Int :=
  match goIndexFrom c s.reverse with
  | none => -1
  | some n => (s.length : Int) - 1 - (n : Int)

/-- The five-field metadata schema shared by the provider adapters
(`extractedArticleDetails` in the Exa variant and `GeminiArticleDetails`
in the Gemini variants have exactly these fields). -/
structure ArticleDetails where
  title : Str
  author : Str
  summary : Str
  datePublished : Str
  type : Int
deriving DecidableEq

/-- The stored record (`types.Article`), restricted to the fields the
creation pipeline populates. -/
structure Article where
  title : Str
  author : Str
  summary : Str
  datePublished : Str
  dateRead : Str
  link : Str
  type : Int
deriving DecidableEq

/-- Parse errors of the Exa response parser.  `couldNotLocate` is the
distinct "could not find json object in string" error of
`extractJSONObjectFromString`; `decodeFail` is a `json.Unmarshal`
failure on the located substring. -/
inductive ParseErr where
  | couldNotLocate
  | decodeFail
deriving DecidableEq

/-- Embedding of `extractJSONObjectFromString` (Exa variant): take the
substring from the first `{` to the last `}` inclusive; error out when
there is no `{`, no `}`, or the last `}` is not strictly after the
first `{`. -/
def extractJSONObjectFromString (s : Str) : Except ParseErr Str :=
  let start := goIndex s '{'
  let stop := goLastIndex s '}'
  if start < 0 ∨ stop < 0 ∨ stop ≤ start then .error .couldNotLocate
  else .ok ((s.drop start.toNat).take (stop.toNat + 1 - start.toNat))

/-- Embedding of `parseExtractedDetailsFromString`: locate the JSON
substring, then decode it.  The JSON decoder (`json.Unmarshal` into the
five-field struct) is an external library function and is passed in as
`decode`; `none` models a decode failure. -/
def parseExtractedDetailsFromString (decode : Str → Option ArticleDetails)
    (s : Str) : Except ParseErr ArticleDetails :=
  match extractJSONObjectFromString s with
  | .error e => .error e
  | .ok obj =>
    match decode obj with
    | none => .error .decodeFail
    | some d => .ok d

/-- Embedding of `exaExtractViaAnswer`'s result handling: the Answer
endpoint either fails (`.error`) or returns a free-text answer, which
is parsed with `parseExtractedDetailsFromString`. -/
def answerFallback (decode : Str → Option ArticleDetails)
    (answer : Except Unit Str) : Except Unit ArticleDetails :=
  match answer with
  | .error _ => .error ()
  | .ok text =>
    match parseExtractedDetailsFromString decode text with
    | .error _ => .error ()
    | .ok d => .ok d

/-- Embedding of the parse-then-fallback step of the Exa
`extractArticleMetadata` (part_001 lines 256-267): parse the primary
summary text; on any parse error, fall back to the answer-based
secondary adapter. -/
def exaParseWithFallback (decode : Str → Option ArticleDetails)
    (primaryText : Str) (answer : Except Unit Str) : Except Unit ArticleDetails :=
  match parseExtractedDetailsFromString decode primaryText with
  | .ok d => .ok d
  | .error _ => answerFallback decode answer

/-- Lower-cased host with a leading `www.` stripped, as computed inside
`fallbackAuthorFromURL`. -/
def hostAfterWWW (h : Str) : Str :=
  let l := goToLower h
  if l.take 4 = ['w', 'w', 'w', '.'] then l.drop 4 else l

/-- Embedding of `fallbackAuthorFromURL`.  `url.Parse` and
`u.Hostname()` are external library calls: the argument is `none` when
the URL fails to parse and `some h` with the extracted hostname
otherwise. -/
def fallbackAuthorFromURL (hostname : Option Str) : Str :=
  match hostname with
  | none => []
  | some h =>
    let host := hostAfterWWW h
    if host = [] then []
    else
      let parts := goSplit '.' host
      if 2 ≤ parts.length then parts.getD (parts.length - 2) [] else host

/-- Embedding of the tail of the Exa `extractArticleMetadata`
(part_001 lines 269-291): trim the decoded fields, apply the hostname
author fallback when the trimmed author is empty, reject the result as
incomplete when the trimmed title or summary is empty, and otherwise
build the article record.  `dateRead` stands for
`time.Now().Format("2006-01-02")`. -/
def exaFinalizeDetails (link : Str) (hostname : Option Str) (dateRead : Str)
    (d : ArticleDetails) : Except Unit Article :=
  let title := goTrimSpace d.title
  let author0 := goTrimSpace d.author
  let summary := goTrimSpace d.summary
  let published := goTrimSpace d.datePublished
  let author := if author0 = [] then fallbackAuthorFromURL hostname else author0
  if title = [] ∨ summary = [] then .error ()
  else .ok { title := title, author := author, summary := summary,
             datePublished := published, dateRead := dateRead,
             link := link, type := d.type }

/-- Embedding of `(*service).ArticleExists`: a row with this link exists. -/
def articleExists (db : List Article) (link : Str) : Bool :=
  db.any (fun a => a.link == link)

/-- Embedding of `(*service).InsertArticle`: append the record. -/
def insertArticle (db : List Article) (a : Article) : List Article :=
  db ++ [a]

/-- Outcomes of the Exa-variant `CreateArticle` handler (part_001). -/
inductive ExaOutcome where
  | invalidRequest
  | alreadyExists
  | extractionError
  | notArticle
  | created (a : Article)
deriving DecidableEq

/-- Embedding of the Exa-variant `CreateArticle` handler (part_001
lines 149-197): bind the link, existence check, metadata extraction
(whose full result is the `extraction` argument), the terminal `-1`
check, then insert.  Returns the outcome and the updated store. -/
def exaCreateArticle (db : List Article) (link : Str)
    (extraction : Except Unit Article) : ExaOutcome × List Article :=
  if link = [] then (.invalidRequest, db)
  else if articleExists db link then (.alreadyExists, db)
  else
    match extraction with
    | .error _ => (.extractionError, db)
    | .ok a => if a.type = -1 then (.notArticle, db) else (.created a, insertArticle db a)

/-- The Exa creation pipeline specialised to a successfully decoded
five-field result `d`: extraction reduces to `exaFinalizeDetails`. -/
def exaCreateWithDetails (db : List Article) (link : Str)
    (hostname : Option Str) (dateRead : Str) (d : ArticleDetails) :
    ExaOutcome × List Article :=
  exaCreateArticle db link (exaFinalizeDetails link hostname dateRead d)

/-! Date parsing (`parseAndFormatDateToUTC`, part_000 lines 720-768).
The Go `time.Parse` calls against the fixed layout list are embedded as
bespoke parsers, one per layout, each consuming the whole input and
validating calendar ranges as `time.Parse` does. -/

/-- Read exactly `k` decimal digits, accumulating their value. -/
def readDigits : Nat → Nat → Str → Option (Nat × Str)
  | 0, acc, s => some (acc, s)
  | _ + 1, _, [] => none
  | k + 1, acc, c :: rest =>
    if c.isDigit then readDigits k (acc * 10 + (c.toNat - 48)) rest else none

/-- Read one or two decimal digits (Go layout element `2`). -/
def readDigitsFlex (s : Str) : Option (Nat × Str) :=
  match s with
  | [] => none
  | c :: rest =>
    if c.isDigit then
      match rest with
      | c2 :: rest2 =>
        if c2.isDigit then some ((c.toNat - 48) * 10 + (c2.toNat - 48), rest2)
        else some (c.toNat - 48, rest)
      | [] => some (c.toNat - 48, [])
    else none

/-- Match a literal token at the head of the input. -/
def expectTok (tok : Str) (s : Str) : Option Str :=
  if List.isPrefixOf tok s then some (s.drop tok.length) else none

/-- Three-letter month abbreviations (Go layout element `Jan`). -/
def monthAbbrevs : List Str :=
  [['J','a','n'], ['F','e','b'], ['M','a','r'], ['A','p','r'],
   ['M','a','y'], ['J','u','n'], ['J','u','l'], ['A','u','g'],
   ['S','e','p'], ['O','c','t'], ['N','o','v'], ['D','e','c']]

/-- Full month names (Go layout element `January`). -/
def monthFulls : List Str :=
  ["January".toList, "February".toList, "March".toList, "April".toList,
   "May".toList, "June".toList, "July".toList, "August".toList,
   "September".toList, "October".toList, "November".toList, "December".toList]

/-- Three-letter weekday abbreviations (Go layout element `Mon`). -/
def dayAbbrevs : List Str :=
  [['M','o','n'], ['T','u','e'], ['W','e','d'], ['T','h','u'],
   ['F','r','i'], ['S','a','t'], ['S','u','n']]

/-- Match one name from `names` case-insensitively (as Go's name lookup
does), returning its 1-based index. -/
def matchName (names : List Str) (s : Str) : Option (Nat × Str) :=
  go names 1 s
where
  go : List Str → Nat → Str → Option (Nat × Str)
    | [], _, _ => none
    | n :: rest, i, s =>
      if goToLower (s.take n.length) = goToLower n then some (i, s.drop n.length)
      else go rest (i + 1) s

/-- A parsed wall-clock time with its zone offset in minutes. -/
structure GoDate where
  year : Int
  month : Nat
  day : Nat
  hour : Nat
  minute : Nat
  second : Nat
  offsetMin : Int
deriving DecidableEq

/-- Leap-year test of the proleptic Gregorian calendar. -/
def isLeapYear (y : Int) : Bool :=
  (y % 4 == 0 && y % 100 != 0) || y % 400 == 0

/-- Number of days in a month. -/
def daysInMonth (y : Int) (m : Nat) : Nat :=
  if m = 2 then (if isLeapYear y then 29 else 28)
  else if m = 4 ∨ m = 6 ∨ m = 9 ∨ m = 11 then 30
  else 31

/-- Range validation performed by `time.Parse` before it returns. -/
def mkGoDate (y : Int) (mo d h mi se : Nat) (off : Int) : Option GoDate :=
  if 1 ≤ mo ∧ mo ≤ 12 ∧ 1 ≤ d ∧ d ≤ daysInMonth y mo ∧
     h ≤ 23 ∧ mi ≤ 59 ∧ se ≤ 59 then
    some ⟨y, mo, d, h, mi, se, off⟩
  else none

/-- Parse the `2006-01-02` date portion. -/
def parseDatePart (s : Str) : Option ((Nat × Nat × Nat) × Str) :=
  (readDigits 4 0 s).bind fun (y, s1) =>
  (expectTok ['-'] s1).bind fun s2 =>
  (readDigits 2 0 s2).bind fun (mo, s3) =>
  (expectTok ['-'] s3).bind fun s4 =>
  (readDigits 2 0 s4).map fun (d, s5) => ((y, mo, d), s5)

/-- Skip an optional fractional-seconds field (`.` plus digits), which
`time.Parse` accepts after a seconds element even when the layout has
none. -/
def skipFraction (s : Str) : Str :=
  match s with
  | '.' :: c :: rest => if c.isDigit then (c :: rest).dropWhile Char.isDigit else s
  | _ => s

/-- Parse the `15:04:05` time portion, with optional fraction. -/
def parseTimePart (s : Str) : Option ((Nat × Nat × Nat) × Str) :=
  (readDigits 2 0 s).bind fun (h, s1) =>
  (expectTok [':'] s1).bind fun s2 =>
  (readDigits 2 0 s2).bind fun (mi, s3) =>
  (expectTok [':'] s3).bind fun s4 =>
  (readDigits 2 0 s4).map fun (se, s5) => ((h, mi, se), skipFraction s5)

/-- Parse the `Z07:00` zone element: `Z`, or a sign with `hh:mm`. -/
def parseZoneColon (s : Str) : Option (Int × Str) :=
  match s with
  | 'Z' :: rest => some (0, rest)
  | c :: rest =>
    if c = '+' ∨ c = '-' then
      (readDigits 2 0 rest).bind fun (h, s1) =>
      (expectTok [':'] s1).bind fun s2 =>
      (readDigits 2 0 s2).map fun (m, s3) =>
        ((if c = '-' then -((h * 60 + m : Nat) : Int) else ((h * 60 + m : Nat) : Int)), s3)
    else none
  | [] => none

/-- Parse the `Z0700` zone element: `Z`, or a sign with `hhmm`. -/
def parseZoneCompactZ (s : Str) : Option (Int × Str) :=
  match s with
  | 'Z' :: rest => some (0, rest)
  | c :: rest =>
    if c = '+' ∨ c = '-' then
      (readDigits 4 0 rest).map fun (n, s1) =>
        ((if c = '-' then -(((n / 100) * 60 + n % 100 : Nat) : Int)
          else (((n / 100) * 60 + n % 100 : Nat) : Int)), s1)
    else none
  | [] => none

/-- Parse the `-0700` zone element: a sign with `hhmm` (no `Z`). -/
def parseZoneNumeric (s : Str) : Option (Int × Str) :=
  match s with
  | c :: rest =>
    if c = '+' ∨ c = '-' then
      (readDigits 4 0 rest).map fun (n, s1) =>
        ((if c = '-' then -(((n / 100) * 60 + n % 100 : Nat) : Int)
          else (((n / 100) * 60 + n % 100 : Nat) : Int)), s1)
    else none
  | [] => none

/-- Parse the `MST` zone element: one or more uppercase letters.
Without a loaded location `time.Parse` records such an abbreviation
with a zero offset. -/
def parseZoneName (s : Str) : Option (Int × Str) :=
  match s with
  | c :: _ =>
    if c.isUpper then some (0, s.dropWhile Char.isUpper) else none
  | [] => none

/-- Layout `time.RFC3339` (and `time.RFC3339Nano`, which accepts the
same inputs here since fractional seconds are optional in both). -/
def layoutRFC3339 (s : Str) : Option GoDate :=
  (parseDatePart s).bind fun ((y, mo, d), s1) =>
  (expectTok ['T'] s1).bind fun s2 =>
  (parseTimePart s2).bind fun ((h, mi, se), s3) =>
  (parseZoneColon s3).bind fun (off, s4) =>
  if s4 = [] then mkGoDate (y : Int) mo d h mi se off else none

/-- Layout `2006-01-02T15:04:05` (no zone; interpreted as UTC). -/
def layoutISONoZone (s : Str) : Option GoDate :=
  (parseDatePart s).bind fun ((y, mo, d), s1) =>
  (expectTok ['T'] s1).bind fun s2 =>
  (parseTimePart s2).bind fun ((h, mi, se), s3) =>
  if s3 = [] then mkGoDate (y : Int) mo d h mi se 0 else none

/-- Layout `2006-01-02 15:04:05 Z0700`. -/
def layoutSpaceZCompact (s : Str) : Option GoDate :=
  (parseDatePart s).bind fun ((y, mo, d), s1) =>
  (expectTok [' '] s1).bind fun s2 =>
  (parseTimePart s2).bind fun ((h, mi, se), s3) =>
  (expectTok [' '] s3).bind fun s4 =>
  (parseZoneCompactZ s4).bind fun (off, s5) =>
  if s5 = [] then mkGoDate (y : Int) mo d h mi se off else none

/-- Layout `2006-01-02 15:04:05 Z07:00`. -/
def layoutSpaceZColon (s : Str) : Option GoDate :=
  (parseDatePart s).bind fun ((y, mo, d), s1) =>
  (expectTok [' '] s1).bind fun s2 =>
  (parseTimePart s2).bind fun ((h, mi, se), s3) =>
  (expectTok [' '] s3).bind fun s4 =>
  (parseZoneColon s4).bind fun (off, s5) =>
  if s5 = [] then mkGoDate (y : Int) mo d h mi se off else none

/-- Layout `2006-01-02` (date only). -/
def layoutDateOnly (s : Str) : Option GoDate :=
  (parseDatePart s).bind fun ((y, mo, d), s1) =>
  if s1 = [] then mkGoDate (y : Int) mo d 0 0 0 0 else none

/-- Layout `02 Jan 2006`. -/
def layoutDayMonYear (s : Str) : Option GoDate :=
  (readDigits 2 0 s).bind fun (d, s1) =>
  (expectTok [' '] s1).bind fun s2 =>
  (matchName monthAbbrevs s2).bind fun (mo, s3) =>
  (expectTok [' '] s3).bind fun s4 =>
  (readDigits 4 0 s4).bind fun (y, s5) =>
  if s5 = [] then mkGoDate (y : Int) mo d 0 0 0 0 else none

/-- Layout `January 2, 2006`. -/
def layoutMonthDayYear (s : Str) : Option GoDate :=
  (matchName monthFulls s).bind fun (mo, s1) =>
  (expectTok [' '] s1).bind fun s2 =>
  (readDigitsFlex s2).bind fun (d, s3) =>
  (expectTok [',', ' '] s3).bind fun s4 =>
  (readDigits 4 0 s4).bind fun (y, s5) =>
  if s5 = [] then mkGoDate (y : Int) mo d 0 0 0 0 else none

/-- Common body of the RFC1123 layouts: `Mon, 02 Jan 2006 15:04:05 `
followed by the zone. -/
def layoutRFC1123With (zone : Str → Option (Int × Str)) (s : Str) : Option GoDate :=
  (matchName dayAbbrevs s).bind fun (_, s0) =>
  (expectTok [',', ' '] s0).bind fun s1 =>
  (readDigits 2 0 s1).bind fun (d, s2) =>
  (expectTok [' '] s2).bind fun s3 =>
  (matchName monthAbbrevs s3).bind fun (mo, s4) =>
  (expectTok [' '] s4).bind fun s5 =>
  (readDigits 4 0 s5).bind fun (y, s6) =>
  (expectTok [' '] s6).bind fun s7 =>
  (parseTimePart s7).bind fun ((h, mi, se), s8) =>
  (expectTok [' '] s8).bind fun s9 =>
  (zone s9).bind fun (off, s10) =>
  if s10 = [] then mkGoDate (y : Int) mo d h mi se off else none

/-- Two-digit years as Go maps them: 69-99 to 19xx, 00-68 to 20xx. -/
def expandYear2 (y : Nat) : Int :=
  if 69 ≤ y then (1900 + y : Nat) else (2000 + y : Nat)

/-- Common body of the RFC822 layouts: `02 Jan 06 15:04 ` followed by
the zone. -/
def layoutRFC822With (zone : Str → Option (Int × Str)) (s : Str) : Option GoDate :=
  (readDigits 2 0 s).bind fun (d, s1) =>
  (expectTok [' '] s1).bind fun s2 =>
  (matchName monthAbbrevs s2).bind fun (mo, s3) =>
  (expectTok [' '] s3).bind fun s4 =>
  (readDigits 2 0 s4).bind fun (y2, s5) =>
  (expectTok [' '] s5).bind fun s6 =>
  (readDigits 2 0 s6).bind fun (h, s7) =>
  (expectTok [':'] s7).bind fun s8 =>
  (readDigits 2 0 s8).bind fun (mi, s9) =>
  (expectTok [' '] s9).bind fun s10 =>
  (zone s10).bind fun (off, s11) =>
  if s11 = [] then mkGoDate (expandYear2 y2) mo d h mi 0 off else none

/-- The ordered layout list of `parseAndFormatDateToUTC` (part_000
lines 726-740): RFC3339, RFC3339Nano, ISO without zone, two
space-separated zone forms, date only, `02 Jan 2006`,
`January 2, 2006`, RFC1123Z, RFC1123, RFC822Z, RFC822. -/
def goDateLayouts : List (Str → Option GoDate) :=
  [layoutRFC3339, layoutRFC3339, layoutISONoZone,
   layoutSpaceZCompact, layoutSpaceZColon, layoutDateOnly,
   layoutDayMonYear, layoutMonthDayYear,
   layoutRFC1123With parseZoneNumeric, layoutRFC1123With parseZoneName,
   layoutRFC822With parseZoneNumeric, layoutRFC822With parseZoneName]

/-- First layout that parses wins, as in the Go loop over `layouts`. -/
def firstParse : List (Str → Option GoDate) → Str → Option GoDate
  | [], _ => none
  | p :: ps, s =>
    match p s with
    | some t => some t
    | none => firstParse ps s

/-- Days since 1970-01-01 of a civil date (proleptic Gregorian). -/
def daysFromCivil (y : Int) (m d : Nat) : Int :=
  let yAdj : Int := if m ≤ 2 then y - 1 else y
  let era : Int := Int.fdiv yAdj 400
  let yoe : Int := yAdj - era * 400
  let mp : Int := ((m : Int) + 9) % 12
  let doy : Int := (153 * mp + 2) / 5 + (d : Int) - 1
  let doe : Int := yoe * 365 + yoe / 4 - yoe / 100 + doy
  era * 146097 + doe - 719468

/-- Civil date of a day count since 1970-01-01. -/
def civilFromDays (z : Int) : Int × Nat × Nat :=
  let z1 := z + 719468
  let era : Int := Int.fdiv z1 146097
  let doe : Nat := (z1 - era * 146097).toNat
  let yoe : Nat := (doe - doe / 1460 + doe / 36524 - doe / 146096) / 365
  let doy : Nat := doe - (365 * yoe + yoe / 4 - yoe / 100)
  let mp : Nat := (5 * doy + 2) / 153
  let d : Nat := doy - (153 * mp + 2) / 5 + 1
  let m : Nat := if mp < 10 then mp + 3 else mp - 9
  ((yoe : Int) + era * 400 + (if m ≤ 2 then 1 else 0), m, d)

/-- Left-pad a digit string with zeros to width `w`. -/
def padZeros (w : Nat) (l : List Char) : List Char :=
  List.replicate (w - l.length) '0' ++ l

/-- Format a `GoDate` converted to UTC as `YYYY-MM-DD`, the embedding
of `parsedTime.UTC().Format("2006-01-02")`. -/
def formatUTCDate (t : GoDate) : Str :=
  let total : Int := daysFromCivil t.year t.month t.day * 86400 +
    ((t.hour * 3600 + t.minute * 60 + t.second : Nat) : Int) - t.offsetMin * 60
  let days := Int.fdiv total 86400
  let c := civilFromDays days
  padZeros 4 (Nat.toDigits 10 c.1.toNat) ++
    ('-' :: padZeros 2 (Nat.toDigits 10 c.2.1)) ++
    ('-' :: padZeros 2 (Nat.toDigits 10 c.2.2))

/-- Embedding of `parseAndFormatDateToUTC` (part_000 lines 720-768):
empty input fails; otherwise trim, try the layouts in order, and on
success format the parsed time in UTC as `YYYY-MM-DD`; on failure
return the trimmed original string with a `false` flag. -/
def parseAndFormatDateToUTC (dateStr : Str) : Str × Bool :=
  if dateStr = [] then ([], false)
  else
    let trimmed := goTrimSpace dateStr
    match firstParse goDateLayouts trimmed with
    | some t => (formatUTCDate t, true)
    | none => (trimmed, false)

/-! The Gemini-variant `CreateArticle` handler of
src/internal/server/articles.go (lines 150-221) and its retry loop.
Each provider attempt is an external event: the `attempts` oracle gives
the result of the `extractArticleMetadata` call of attempt `i` —
`none` for an error return, `some d` for a successfully parsed
five-field result. -/

/-- Exit of the `for attempt := range numRetries` loop of the Gemini
`CreateArticle`.  `calls` counts provider calls made so far;
`fallthrough` is the loop running to completion without `break` or
`return`, carrying the last parsed result (or `none` when the loop
body never ran). -/
inductive GemExit where
  | failed (calls : Nat)
  | rejected (calls : Nat)
  | exhausted (calls : Nat)
  | insert (d : ArticleDetails) (calls : Nat)
  | fallthrough (prev : Option ArticleDetails)
deriving DecidableEq

/-- Embedding of the retry loop (articles.go lines 181-204): extraction
error returns; `type >= 0` breaks to the insert step; `type == -1`
returns the not-an-article rejection; `type == -2` retries unless this
is the final attempt; any other type falls through to the next
iteration. -/
def gemLoop (attempts : Nat → Option ArticleDetails) : Nat → Nat → Option ArticleDetails → GemExit
  | _, 0, prev => .fallthrough prev
  | i, rem + 1, _ =>
    match attempts i with
    | none => .failed (i + 1)
    | some d =>
      if 0 ≤ d.type then .insert d (i + 1)
      else if d.type = -1 then .rejected (i + 1)
      else if d.type = -2 then
        if rem = 0 then .exhausted (i + 1) else gemLoop attempts (i + 1) rem (some d)
      else gemLoop attempts (i + 1) rem (some d)

/-- Outcomes of the Gemini-variant `CreateArticle` handler. -/
inductive GemOutcome where
  | invalidRequest
  | alreadyExists
  | configError
  | internalError
  | rejected
  | exhausted
  | created (a : Article)
  | nilPanic
deriving DecidableEq

/-- Result of one handler run: outcome, updated store, provider calls. -/
structure GemResult where
  outcome : GemOutcome
  db : List Article
  calls : Nat
deriving DecidableEq

/-- Build a `types.Article` from a parsed five-field result, as
`extractArticleMetadata` does (articles.go lines 306-314).  `dateRead`
stands for `time.Now().Format("2006-01-02")`. -/
def mkArticle (link dateRead : Str) (d : ArticleDetails) : Article :=
  { title := d.title, author := d.author, summary := d.summary,
    datePublished := d.datePublished, dateRead := dateRead,
    link := link, type := d.type }

/-- Embedding of the Gemini-variant `CreateArticle` handler
(articles.go lines 150-221): bind the link, existence check,
`NUM_RETRIES` parse (`none` models an `Atoi` failure), the retry loop,
then insert and respond.  A loop that never ran leaves the article
pointer nil and the insert dereferences it (`nilPanic`). -/
def createArticleGemini (db : List Article) (link dateRead : Str)
    (numRetries : Option Nat) (attempts : Nat → Option ArticleDetails) : GemResult :=
  if link = [] then ⟨.invalidRequest, db, 0⟩
  else if articleExists db link then ⟨.alreadyExists, db, 0⟩
  else
    match numRetries with
    | none => ⟨.configError, db, 0⟩
    | some n =>
      match gemLoop attempts 0 n none with
      | .failed c => ⟨.internalError, db, c⟩
      | .rejected c => ⟨.rejected, db, c⟩
      | .exhausted c => ⟨.exhausted, db, c⟩
      | .insert d c =>
        ⟨.created (mkArticle link dateRead d), insertArticle db (mkArticle link dateRead d), c⟩
      | .fallthrough none => ⟨.nilPanic, db, n⟩
      | .fallthrough (some d) =>
        ⟨.created (mkArticle link dateRead d), insertArticle db (mkArticle link dateRead d), n⟩

/-! The local-extraction Gemini variant (part_000): `fetchAndExtractLocally`
and the `CreateArticle` handler with linear backoff (lines 418-546). -/

/-- The signals of the fetched HTML document that the modelled parts of
`fetchAndExtractLocally` read.  Title signals are modelled exactly;
the author cascade, JSON-LD pass and body-text extraction are
abstracted as pre-extracted fields, and `dateCandidates` is the
candidate list collected from meta tags, `<time>` elements and visible
text (lines 270-287), with `afterLdDate` the date state left by the
preceding JSON-LD pass. -/
structure Doc where
  headTitleText : Str
  ogTitle : Option Str
  twitterTitle : Option Str
  h1Text : Str
  authorText : Str
  authorFound : Bool
  afterLdDate : Str × Bool
  dateCandidates : List Str
  bodyText : Str

/-- Embedding of the title cascade (part_000 lines 80-92): `<title>`
text, else `og:title` content, else `twitter:title` content, else the
first `<h1>` text, each trimmed; the found flag is the result being
non-empty.  A missing meta attribute reads as the empty string. -/
def extractTitle (d : Doc) : Str × Bool :=
  let t0 := goTrimSpace d.headTitleText
  let t1 := if t0 = [] then goTrimSpace (d.ogTitle.getD []) else t0
  let t2 := if t1 = [] then goTrimSpace (d.twitterTitle.getD []) else t1
  let t3 := if t2 = [] then goTrimSpace d.h1Text else t2
  (t3, !(t3 = []))

/-- Embedding of the candidate-date loop (part_000 lines 289-300):
the first candidate that `parseAndFormatDateToUTC` parses sets the
published date and the found flag and stops the scan; otherwise the
incoming state is kept. -/
def applyDateCandidates (acc : Str × Bool) : List Str → Str × Bool
  | [] => acc
  | c :: rest =>
    let r := parseAndFormatDateToUTC c
    if r.2 then (r.1, true) else applyDateCandidates acc rest

/-- The `ExtractedContent` struct of part_000: local hints with
found/not-found flags. -/
structure LocalContent where
  url : Str
  title : Str
  titleFound : Bool
  author : Str
  authorFound : Bool
  datePublished : Str
  dateFound : Bool
  bodyText : Str
deriving DecidableEq

/-- The all-not-found hint set (`&ExtractedContent{URL: url}`). -/
def emptyContent (url : Str) : LocalContent :=
  { url := url, title := [], titleFound := false, author := [],
    authorFound := false, datePublished := [], dateFound := false, bodyText := [] }

/-- Hints extracted from a successfully fetched and parsed document. -/
def extractContent (url : Str) (d : Doc) : LocalContent :=
  let t := extractTitle d
  let dt := applyDateCandidates d.afterLdDate d.dateCandidates
  { url := url, title := t.1, titleFound := t.2,
    author := d.authorText, authorFound := d.authorFound,
    datePublished := dt.1, dateFound := dt.2, bodyText := d.bodyText }

/-- Result of the HTTP GET of the target URL: a network error, or a
status code with the parsed document (`none` when the body does not
parse as HTML). -/
inductive FetchOutcome where
  | netErr
  | ok (status : Nat) (doc : Option Doc)

/-- Embedding of `fetchAndExtractLocally` (part_000 lines 36-378): a
network error is returned as an error; a response with a status other
than 200 returns the empty hint set with no error; an unparsable body
likewise; otherwise the hints are extracted from the document. -/
def fetchAndExtractLocally (url : Str) (f : FetchOutcome) : Except Unit LocalContent :=
  match f with
  | .netErr => .error ()
  | .ok status doc =>
    if status ≠ 200 then .ok (emptyContent url)
    else
      match doc with
      | none => .ok (emptyContent url)
      | some d => .ok (extractContent url d)

/-- Result of one `extractArticleMetadata(ctx, link, localContent)`
call in part_000: an error, a nil result with nil error, or a parsed
five-field result. -/
inductive GemCallResult where
  | failure
  | nilResult
  | ok (d : ArticleDetails)

/-- Exit of the part_000 retry loop, carrying the provider calls made
and the backoff delays (in seconds) slept between attempts. -/
inductive LocalGemExit where
  | timeout (calls : Nat) (delays : List Nat)
  | rejected (calls : Nat) (delays : List Nat)
  | exhausted (calls : Nat) (delays : List Nat)
  | success (d : ArticleDetails) (calls : Nat) (delays : List Nat)
  | fallthrough (calls : Nat) (delays : List Nat)
deriving DecidableEq

/-- Embedding of the part_000 retry loop (lines 466-507): check the
context deadline, call Gemini, break on `type >= 0`, return the
rejection on `type == -1`, return the exhaustion error on the final
attempt, and otherwise sleep `(attempt+1) * 1s` and retry. -/
def localGemLoop (ctxErr : Nat → Bool) (call : Nat → GemCallResult) :
    Nat → Nat → List Nat → LocalGemExit
  | i, 0, ds => .fallthrough i ds
  | i, rem + 1, ds =>
    if ctxErr i then .timeout i ds
    else
      match call i with
      | .ok d =>
        if 0 ≤ d.type then .success d (i + 1) ds
        else if d.type = -1 then .rejected (i + 1) ds
        else if rem = 0 then .exhausted (i + 1) ds
        else localGemLoop ctxErr call (i + 1) rem (ds ++ [i + 1])
      | _ =>
        if rem = 0 then .exhausted (i + 1) ds
        else localGemLoop ctxErr call (i + 1) rem (ds ++ [i + 1])

/-- Outcomes of the part_000 `CreateArticle` handler. -/
inductive LocalOutcome where
  | invalidRequest
  | alreadyExists
  | timeout
  | rejected
  | exhausted
  | incomplete
  | created (a : Article)
  | nilPanic
deriving DecidableEq

/-- Result of one part_000 handler run. -/
structure LocalCreateResult where
  outcome : LocalOutcome
  db : List Article
  calls : Nat
  delays : List Nat
deriving DecidableEq

/-- Embedding of the part_000 `CreateArticle` handler (lines 418-546):
bind the link, existence check, local extraction (a failure degrades to
the empty hint set), the retry loop with backoff (`NUM_RETRIES` is
clamped to a minimum of 1), the title/summary completeness check on the
combined result, then insert.  The local hints only feed the prompt,
which the `call` oracle abstracts. -/
def createArticleLocal (db : List Article) (link dateRead : Str) (f : FetchOutcome)
    (numRetries : Nat) (ctxErr : Nat → Bool) (call : Nat → GemCallResult) :
    LocalCreateResult :=
  if link = [] then ⟨.invalidRequest, db, 0, []⟩
  else if articleExists db link then ⟨.alreadyExists, db, 0, []⟩
  else
    let _hints : LocalContent :=
      match fetchAndExtractLocally link f with
      | .error _ => emptyContent link
      | .ok c => c
    let n := if numRetries = 0 then 1 else numRetries
    match localGemLoop ctxErr call 0 n [] with
    | .timeout c ds => ⟨.timeout, db, c, ds⟩
    | .rejected c ds => ⟨.rejected, db, c, ds⟩
    | .exhausted c ds => ⟨.exhausted, db, c, ds⟩
    | .fallthrough c ds => ⟨.nilPanic, db, c, ds⟩
    | .success d c ds =>
      if d.title = [] ∨ d.summary = [] then ⟨.incomplete, db, c, ds⟩
      else ⟨.created (mkArticle link dateRead d),
            insertArticle db (mkArticle link dateRead d), c, ds⟩

/-! Helper lemmas. -/

theorem firstParse_eq_none {L : List (Str → Option GoDate)} {s : Str}
    (h : ∀ p ∈ L, p s = none) : firstParse L s = none := by
  induction L with
  | nil => rfl
  | cons p ps ih =>
    have hp := h p (by simp)
    simp only [firstParse, hp]
    exact ih fun q hq => h q (by simp [hq])

theorem parseDate_of_no_layout {s : Str}
    (h : ∀ p ∈ goDateLayouts, p (goTrimSpace s) = none) :
    parseAndFormatDateToUTC s = (goTrimSpace s, false) := by
  by_cases hs : s = []
  · subst hs; rfl
  · simp only [parseAndFormatDateToUTC, if_neg hs, firstParse_eq_none h]

/-- Spec-side priority cascade, modelled from the spec's words
"per field, first match wins, in priority order": the first non-empty
entry of the candidate list. -/
def firstNonEmpty : List Str → Str
  | [] => []
  | x :: xs => if x = [] then firstNonEmpty xs else x

/-- Claim C8: the local extractor determines the title by a first-match-wins
cascade over the trimmed `<title>` text, `og:title` content,
`twitter:title` content and first `<h1>` text, and the found flag is
set exactly when the resulting trimmed title is non-empty. -/
theorem c8_title_cascade (d : Doc) :
    (extractTitle d).1 = firstNonEmpty
      [goTrimSpace d.headTitleText, goTrimSpace (d.ogTitle.getD []),
       goTrimSpace (d.twitterTitle.getD []), goTrimSpace d.h1Text]
    ∧ ((extractTitle d).2 = true ↔ (extractTitle d).1 ≠ []) := by
  simp only [extractTitle, firstNonEmpty]
  constructor
  · split_ifs <;> simp_all
  · split_ifs <;> simp_all

/-- Instantiation of `c8_title_cascade` at a document carrying only an
`og:title`. -/
theorem c8_title_cascade_witness :
    (extractTitle ⟨[' '], some ("My Post".toList), none, [], [], false,
        ([], false), [], []⟩).1 = "My Post".toList :=
  (c8_title_cascade _).1

/-- Claim C7: local date parsing maps `2024-09-20T10:00:00Z` and
`20 Sep 2024` to `2024-09-20`; an input that no known layout parses is
reported unsuccessful with the trimmed original string (no fabricated
date), and the candidate-date scan then leaves the hint state
untouched, so the date hint stays marked not-found. -/
theorem c7_date_parsing :
    (parseAndFormatDateToUTC ("2024-09-20T10:00:00Z".toList) = ("2024-09-20".toList, true))
    ∧ (parseAndFormatDateToUTC ("20 Sep 2024".toList) = ("2024-09-20".toList, true))
    ∧ (∀ s : Str, (∀ p ∈ goDateLayouts, p (goTrimSpace s) = none) →
        parseAndFormatDateToUTC s = (goTrimSpace s, false))
    ∧ (∀ (acc : Str × Bool) (cands : List Str),
        (∀ c ∈ cands, ∀ p ∈ goDateLayouts, p (goTrimSpace c) = none) →
        applyDateCandidates acc cands = acc) := by
  refine ⟨by decide, by decide, fun s h => parseDate_of_no_layout h, fun acc cands h => ?_⟩
  induction cands with
  | nil => rfl
  | cons c rest ih =>
    have hc := parseDate_of_no_layout (h c (by simp))
    simp only [applyDateCandidates, hc]
    exact ih fun x hx => h x (by simp [hx])

/-- Instantiation of `c7_date_parsing` at the unparsable string
`this is not a date`. -/
theorem c7_date_parsing_witness :
    parseAndFormatDateToUTC ("this is not a date".toList) = ("this is not a date".toList, false)
    ∧ applyDateCandidates ([], false) [("this is not a date".toList)] = ([], false) :=
  ⟨c7_date_parsing.2.2.1 _ (by decide), c7_date_parsing.2.2.2 _ _ (by decide)⟩

/-- Provider calls recorded by a part_000 loop exit. -/
def localExitCalls : LocalGemExit → Nat
  | .timeout c _ => c
  | .rejected c _ => c
  | .exhausted c _ => c
  | .success _ c _ => c
  | .fallthrough c _ => c

theorem localGemLoop_calls_ge (ctxErr : Nat → Bool) (call : Nat → GemCallResult) :
    ∀ (rem i : Nat) (ds : List Nat),
      i ≤ localExitCalls (localGemLoop ctxErr call i rem ds) := by
  intro rem
  induction rem with
  | zero => intro i ds; simp [localGemLoop, localExitCalls]
  | succ rem ih =>
    intro i ds
    simp only [localGemLoop]
    split
    · simp [localExitCalls]
    · cases call i with
      | ok d =>
        simp only []
        split_ifs with h1 h2 h3
        · simp [localExitCalls]
        · simp [localExitCalls]
        · simp [localExitCalls]
        · exact le_trans (Nat.le_succ i) (ih (i + 1) (ds ++ [i + 1]))
      | failure =>
        simp only []
        split_ifs with h1
        · simp [localExitCalls]
        · exact le_trans (Nat.le_succ i) (ih (i + 1) (ds ++ [i + 1]))
      | nilResult =>
        simp only []
        split_ifs with h1
        · simp [localExitCalls]
        · exact le_trans (Nat.le_succ i) (ih (i + 1) (ds ++ [i + 1]))

theorem localGemLoop_calls_pos (ctxErr : Nat → Bool) (call : Nat → GemCallResult)
    (rem i : Nat) (ds : List Nat) (hrem : 1 ≤ rem) (hctx : ctxErr i = false) :
    i + 1 ≤ localExitCalls (localGemLoop ctxErr call i rem ds) := by
  obtain ⟨rem', rfl⟩ : ∃ r, rem = r + 1 := ⟨rem - 1, by omega⟩
  simp only [localGemLoop, hctx, Bool.false_eq_true, if_false]
  cases call i with
  | ok d =>
    simp only []
    split_ifs with h1 h2 h3
    · simp [localExitCalls]
    · simp [localExitCalls]
    · simp [localExitCalls]
    · exact localGemLoop_calls_ge ctxErr call rem' (i + 1) (ds ++ [i + 1])
  | failure =>
    simp only []
    split_ifs with h1
    · simp [localExitCalls]
    · exact localGemLoop_calls_ge ctxErr call rem' (i + 1) (ds ++ [i + 1])
  | nilResult =>
    simp only []
    split_ifs with h1
    · simp [localExitCalls]
    · exact localGemLoop_calls_ge ctxErr call rem' (i + 1) (ds ++ [i + 1])

/-- Claim C9: a fetch of the target URL that returns a non-2xx status is not
fatal: local extraction returns the all-not-found hint set with no
error, and the pipeline still makes at least one provider call. -/
theorem c9_non2xx_not_fatal (url link dateRead : Str) (status : Nat) (doc : Option Doc)
    (db : List Article) (numRetries : Nat) (ctxErr : Nat → Bool) (call : Nat → GemCallResult)
    (hstatus : ¬(200 ≤ status ∧ status ≤ 299))
    (hlink : link ≠ []) (hex : articleExists db link = false)
    (hctx : ctxErr 0 = false) :
    fetchAndExtractLocally url (.ok status doc) = .ok (emptyContent url)
    ∧ 1 ≤ (createArticleLocal db link dateRead (.ok status doc) numRetries ctxErr call).calls := by
  have h200 : status ≠ 200 := by omega
  constructor
  · simp [fetchAndExtractLocally, h200]
  · have hn : 1 ≤ (if numRetries = 0 then 1 else numRetries) := by split <;> omega
    have hpos := localGemLoop_calls_pos ctxErr call (if numRetries = 0 then 1 else numRetries)
      0 [] hn hctx
    simp only [createArticleLocal, if_neg hlink, hex, Bool.false_eq_true, if_false]
    split <;> rename_i heq <;> rw [heq] at hpos <;>
      first
      | simpa [localExitCalls] using hpos
      | (split <;> simpa [localExitCalls] using hpos)

/-- Instantiation of `c9_non2xx_not_fatal` at a 500 response. -/
theorem c9_non2xx_not_fatal_witness :
    fetchAndExtractLocally ['u'] (.ok 500 none) = .ok (emptyContent ['u'])
    ∧ 1 ≤ (createArticleLocal [] ['l'] ['r'] (.ok 500 none) 1
            (fun _ => false) (fun _ => .failure)).calls :=
  c9_non2xx_not_fatal ['u'] ['l'] ['r'] 500 none [] 1 (fun _ => false) (fun _ => .failure)
    (by decide) (by decide) (by decide) rfl

theorem gemLoop_rejected_at (att : Nat → Option ArticleDetails) :
    ∀ (k i rem : Nat) (prev : Option ArticleDetails),
      k < rem →
      (∀ j, j < k → ∃ d, att (i + j) = some d ∧ d.type < -1) →
      (∀ d, att (i + k) = some d → d.type = -1) →
      (att (i + k)).isSome →
      gemLoop att i rem prev = .rejected (i + k + 1) := by
  intro k
  induction k with
  | zero =>
    intro i rem prev hlt hprev hcur hsome
    obtain ⟨rem', rfl⟩ : ∃ r, rem = r + 1 := ⟨rem - 1, by omega⟩
    obtain ⟨d, hd⟩ := Option.isSome_iff_exists.mp hsome
    simp only [Nat.add_zero] at hd
    have ht := hcur d (by simpa using hd)
    simp [gemLoop, hd, ht]
  | succ k ih =>
    intro i rem prev hlt hprev hcur hsome
    obtain ⟨rem', rfl⟩ : ∃ r, rem = r + 1 := ⟨rem - 1, by omega⟩
    obtain ⟨d0, hd0, htype0⟩ := hprev 0 (by omega)
    simp only [Nat.add_zero] at hd0
    have hrec : gemLoop att (i + 1) rem' (some d0) = .rejected (i + 1 + k + 1) := by
      apply ih (i + 1) rem' (some d0) (by omega)
      · intro j hj
        obtain ⟨d, hd, ht⟩ := hprev (j + 1) (by omega)
        exact ⟨d, by rw [show i + 1 + j = i + (j + 1) by omega]; exact hd, ht⟩
      · intro d hd
        exact hcur d (by rw [show i + (k + 1) = i + 1 + k by omega]; exact hd)
      · rw [show i + 1 + k = i + (k + 1) by omega]; exact hsome
    have hn0 : ¬(0 : Int) ≤ d0.type := by omega
    have hn1 : d0.type ≠ -1 := by omega
    by_cases h2 : d0.type = -2
    · have hr : rem' ≠ 0 := by omega
      simp only [gemLoop, hd0, if_neg hn0, if_neg hn1, if_pos h2, if_neg hr]
      rw [hrec]; congr 1; omega
    · simp only [gemLoop, hd0, if_neg hn0, if_neg hn1, if_neg h2]
      rw [hrec]; congr 1; omega

/-- Claim C2: when a provider response parses with `type == -1` on attempt
`k` (after `k` retryable attempts), the Gemini pipeline rejects on that
very attempt regardless of the remaining budget: the outcome is the
user-facing rejection, exactly `k+1` provider calls are made, and the
store is unchanged (no record is inserted). -/
theorem c2_reject_is_terminal (db : List Article) (link dateRead : Str)
    (n k : Nat) (attempts : Nat → Option ArticleDetails)
    (hlink : link ≠ []) (hex : articleExists db link = false) (hk : k < n)
    (hprev : ∀ j, j < k → ∃ d, attempts j = some d ∧ d.type < -1)
    (hcur : ∃ d, attempts k = some d ∧ d.type = -1) :
    createArticleGemini db link dateRead (some n) attempts = ⟨.rejected, db, k + 1⟩ := by
  obtain ⟨d, hd, ht⟩ := hcur
  have hloop := gemLoop_rejected_at attempts k 0 n none hk
    (by intro j hj; simpa using hprev j hj)
    (by intro d' hd'; simp only [Nat.zero_add] at hd'; rw [hd] at hd'; cases hd'; exact ht)
    (by simp [hd])
  simp only [Nat.zero_add] at hloop
  simp [createArticleGemini, if_neg hlink, hex, hloop]

/-- Instantiation of `c2_reject_is_terminal`: a `-1` response on the
first of five attempts rejects after one call. -/
theorem c2_reject_is_terminal_witness :
    createArticleGemini [] ['u'] ['r'] (some 5)
      (fun _ => some ⟨['t'], [], ['s'], [], -1⟩) = ⟨.rejected, [], 1⟩ :=
  c2_reject_is_terminal [] ['u'] ['r'] 5 0 (fun _ => some ⟨['t'], [], ['s'], [], -1⟩)
    (by decide) (by decide) (by omega) (by omega)
    ⟨⟨['t'], [], ['s'], [], -1⟩, rfl, rfl⟩

theorem localGemLoop_step_retry (ctxErr : Nat → Bool) (call : Nat → GemCallResult)
    (i rem : Nat) (ds : List Nat) (hc : ctxErr i = false)
    (d : ArticleDetails) (hd : call i = .ok d) (ht : d.type = -2) (hrem : rem ≠ 0) :
    localGemLoop ctxErr call i (rem + 1) ds =
      localGemLoop ctxErr call (i + 1) rem (ds ++ [i + 1]) := by
  have hn0 : ¬(0 : Int) ≤ d.type := by omega
  have hn1 : d.type ≠ -1 := by omega
  simp only [localGemLoop, hc, Bool.false_eq_true, if_false, hd,
    if_neg hn0, if_neg hn1, if_pos ht, if_neg hrem]

theorem localGemLoop_all_minus2 (ctxErr : Nat → Bool) (call : Nat → GemCallResult)
    (hctx : ∀ i, ctxErr i = false) :
    ∀ (rem i : Nat) (ds : List Nat), 1 ≤ rem →
      (∀ j, j < rem → ∃ d, call (i + j) = .ok d ∧ d.type = -2) →
      localGemLoop ctxErr call i rem ds =
        .exhausted (i + rem) (ds ++ (List.range (rem - 1)).map (fun j => i + j + 1)) := by
  intro rem
  induction rem with
  | zero => omega
  | succ rem ih =>
    intro i ds _ hcall
    obtain ⟨d, hd, ht⟩ := hcall 0 (by omega)
    simp only [Nat.add_zero] at hd
    have hn0 : ¬(0 : Int) ≤ d.type := by omega
    have hn1 : d.type ≠ -1 := by omega
    by_cases hrem : rem = 0
    · subst hrem
      simp [localGemLoop, hctx i, hd, hn0, hn1]
    · have hrec := ih (i + 1) (ds ++ [i + 1]) (by omega) (by
        intro j hj
        obtain ⟨d', hd', ht'⟩ := hcall (j + 1) (by omega)
        exact ⟨d', by rw [show i + 1 + j = i + (j + 1) by omega]; exact hd', ht'⟩)
      rw [localGemLoop_step_retry ctxErr call i rem ds (hctx i) d hd ht hrem, hrec]
      obtain ⟨rem', rfl⟩ : ∃ r, rem = r + 1 := ⟨rem - 1, by omega⟩
      have h1 : i + 1 + (rem' + 1) = i + (rem' + 1 + 1) := by omega
      have h2 : ds ++ [i + 1] ++ (List.range (rem' + 1 - 1)).map (fun j => i + 1 + j + 1)
          = ds ++ (List.range (rem' + 1 + 1 - 1)).map (fun j => i + j + 1) := by
        rw [List.append_assoc]
        congr 1
        rw [show rem' + 1 - 1 = rem' from rfl, show rem' + 1 + 1 - 1 = rem' + 1 from rfl,
          List.range_succ_eq_map]
        simp only [List.map_cons, List.map_map, List.singleton_append]
        congr 1
        apply List.map_congr_left
        intro j _
        simp only [Function.comp_apply]
        omega
      rw [h1, h2]

/-- Claim C3: when every attempt parses with `type == -2`, the part_000
pipeline ends in the exhausted outcome after exactly `N` provider
calls, with the linear backoff delays `1, 2, ..., N-1` seconds slept
between consecutive attempts, a strictly increasing sequence. -/
theorem c3_exhausted_with_backoff (db : List Article) (link dateRead : Str)
    (f : FetchOutcome) (n : Nat) (ctxErr : Nat → Bool) (call : Nat → GemCallResult)
    (hlink : link ≠ []) (hex : articleExists db link = false) (hn : 1 ≤ n)
    (hctx : ∀ i, ctxErr i = false)
    (hcall : ∀ j, j < n → ∃ d, call j = .ok d ∧ d.type = -2) :
    createArticleLocal db link dateRead f n ctxErr call =
      ⟨.exhausted, db, n, (List.range (n - 1)).map (· + 1)⟩
    ∧ List.Pairwise (· < ·) ((List.range (n - 1)).map (· + 1)) := by
  constructor
  · have hne : n ≠ 0 := by omega
    have hloop := localGemLoop_all_minus2 ctxErr call hctx n 0 [] hn
      (by intro j hj; simpa using hcall j hj)
    simp only [Nat.zero_add, List.nil_append] at hloop
    simp only [createArticleLocal, if_neg hlink, hex, Bool.false_eq_true, if_false,
      if_neg hne, hloop]
  · exact (List.pairwise_lt_range _).map _ (fun _ _ h => by omega)

/-- Instantiation of `c3_exhausted_with_backoff` at a budget of three
attempts: three calls, then exhaustion, with delays `[1, 2]`. -/
theorem c3_exhausted_with_backoff_witness :
    createArticleLocal [] ['u'] ['r'] (.ok 500 none) 3 (fun _ => false)
      (fun _ => .ok ⟨['t'], [], ['s'], [], -2⟩) = ⟨.exhausted, [], 3, [1, 2]⟩ := by
  have h := (c3_exhausted_with_backoff [] ['u'] ['r'] (.ok 500 none) 3 (fun _ => false)
    (fun _ => .ok ⟨['t'], [], ['s'], [], -2⟩) (by decide) (by decide) (by omega)
    (fun _ => rfl) (fun j _ => ⟨⟨['t'], [], ['s'], [], -2⟩, rfl, rfl⟩)).1
  simpa using h

theorem gemLoop_insert_nonneg (att : Nat → Option ArticleDetails) :
    ∀ (rem i : Nat) (prev : Option ArticleDetails) (d : ArticleDetails) (c : Nat),
      gemLoop att i rem prev = .insert d c → 0 ≤ d.type := by
  intro rem
  induction rem with
  | zero => intro i prev d c h; simp [gemLoop] at h
  | succ rem ih =>
    intro i prev d c h
    simp only [gemLoop] at h
    split at h
    · simp at h
    · rename_i d0 hd0
      split_ifs at h with h1 h2 h3
      · cases h; exact h1
      · exact ih (i + 1) (some d0) d c h
      · exact ih (i + 1) (some d0) d c h

theorem gemLoop_fallthrough_le (att : Nat → Option ArticleDetails) :
    ∀ (rem i : Nat) (prev : Option ArticleDetails) (d : ArticleDetails),
      1 ≤ rem →
      gemLoop att i rem prev = .fallthrough (some d) → d.type ≤ -3 := by
  intro rem
  induction rem with
  | zero => omega
  | succ rem ih =>
    intro i prev d _ h
    simp only [gemLoop] at h
    split at h
    · simp at h
    · rename_i d0 hd0
      split_ifs at h with h1 h2 h3
      · exact ih (i + 1) (some d0) d (by omega) h
      · by_cases hr : rem = 0
        · subst hr
          simp only [gemLoop] at h
          cases h
          omega
        · exact ih (i + 1) (some d0) d (by omega) h

/-- Claim C4, amended: every record the Gemini pipeline hands to storage
has a type that is either nonnegative (any such value is accepted as
success, not only 0, 1, 2) or at most -3 (a response with such a type
on the final attempt falls through to the insert step); in particular
no inserted record has type -1 or -2.  The inserted record is appended
to the store. -/
theorem c4_inserted_type_range (db db2 : List Article) (link dateRead : Str)
    (numRetries : Option Nat) (attempts : Nat → Option ArticleDetails)
    (a : Article) (c : Nat)
    (h : createArticleGemini db link dateRead numRetries attempts = ⟨.created a, db2, c⟩) :
    (0 ≤ a.type ∨ a.type ≤ -3) ∧ a.type ≠ -1 ∧ a.type ≠ -2 ∧ db2 = insertArticle db a := by
  simp only [createArticleGemini] at h
  split_ifs at h with h1 h2
  · simp at h
  · simp at h
  · split at h
    · simp at h
    · rename_i n
      split at h <;> rename_i heq
      · simp at h
      · simp at h
      · simp at h
      · obtain ⟨h3, h4, h5⟩ := GemResult.mk.injEq .. ▸ h
        simp only [GemOutcome.created.injEq] at h3
        have ht := gemLoop_insert_nonneg attempts n 0 none _ _ heq
        subst h3 h4
        simp only [mkArticle]
        exact ⟨Or.inl ht, by omega, by omega, trivial⟩
      · simp at h
      · obtain ⟨h3, h4, h5⟩ := GemResult.mk.injEq .. ▸ h
        simp only [GemOutcome.created.injEq] at h3
        have hn : 1 ≤ n := by
          rcases n with _ | n
          · simp [gemLoop] at heq
          · omega
        have ht := gemLoop_fallthrough_le attempts n 0 none _ hn heq
        subst h3 h4
        simp only [mkArticle]
        exact ⟨Or.inr ht, by omega, by omega, trivial⟩

/-- Instantiation of `c4_inserted_type_range` at a type-0 response. -/
theorem c4_inserted_type_range_witness :
    (0 ≤ (mkArticle ['u'] ['r'] ⟨['t'], [], ['s'], [], 0⟩).type ∨
      (mkArticle ['u'] ['r'] ⟨['t'], [], ['s'], [], 0⟩).type ≤ -3)
    ∧ (mkArticle ['u'] ['r'] ⟨['t'], [], ['s'], [], 0⟩).type ≠ -1
    ∧ (mkArticle ['u'] ['r'] ⟨['t'], [], ['s'], [], 0⟩).type ≠ -2
    ∧ [mkArticle ['u'] ['r'] ⟨['t'], [], ['s'], [], 0⟩]
        = insertArticle [] (mkArticle ['u'] ['r'] ⟨['t'], [], ['s'], [], 0⟩) :=
  c4_inserted_type_range [] _ ['u'] ['r'] (some 1)
    (fun _ => some ⟨['t'], [], ['s'], [], 0⟩) _ 1 rfl

/-- Claim C4 counterexample: a response with type 3 — outside `{0, 1, 2}` —
is accepted as success and the record is persisted with type 3, so
`type ∈ {0,1,2}` is not the only condition eligible for persistence. -/
theorem c4_counterexample :
    createArticleGemini [] ['u'] ['r'] (some 1)
        (fun _ => some ⟨['t'], [], ['s'], [], 3⟩) =
      ⟨.created (mkArticle ['u'] ['r'] ⟨['t'], [], ['s'], [], 3⟩),
        [mkArticle ['u'] ['r'] ⟨['t'], [], ['s'], [], 3⟩], 1⟩
    ∧ (mkArticle ['u'] ['r'] ⟨['t'], [], ['s'], [], 3⟩).type = 3
    ∧ ¬((mkArticle ['u'] ['r'] ⟨['t'], [], ['s'], [], 3⟩).type = 0
        ∨ (mkArticle ['u'] ['r'] ⟨['t'], [], ['s'], [], 3⟩).type = 1
        ∨ (mkArticle ['u'] ['r'] ⟨['t'], [], ['s'], [], 3⟩).type = 2) := by
  decide

/-- Claim C5: a second submission of a URL whose first submission created a
record is rejected by the existence check: the outcome is
already-exists, no provider call is made, and the store is unchanged. -/
theorem c5_duplicate_url_rejected (db db2 : List Article) (link dr1 dr2 : Str)
    (nr1 nr2 : Option Nat) (att1 att2 : Nat → Option ArticleDetails)
    (a : Article) (c : Nat)
    (h : createArticleGemini db link dr1 nr1 att1 = ⟨.created a, db2, c⟩) :
    createArticleGemini db2 link dr2 nr2 att2 = ⟨.alreadyExists, db2, 0⟩ := by
  simp only [createArticleGemini] at h
  split_ifs at h with h1 h2
  · simp at h
  · simp at h
  · have hdb2 : ∃ d, db2 = insertArticle db (mkArticle link dr1 d) := by
      split at h
      · simp at h
      · split at h <;> rename_i heq
        · simp at h
        · simp at h
        · simp at h
        · exact ⟨_, (GemResult.mk.injEq .. ▸ h).2.1.symm⟩
        · simp at h
        · exact ⟨_, (GemResult.mk.injEq .. ▸ h).2.1.symm⟩
    obtain ⟨d, rfl⟩ := hdb2
    have hex2 : articleExists (insertArticle db (mkArticle link dr1 d)) link = true := by
      simp [articleExists, insertArticle, mkArticle]
    simp [createArticleGemini, if_neg h1, hex2]

/-- Instantiation of `c5_duplicate_url_rejected`: a second submission
after a successful type-0 creation. -/
theorem c5_duplicate_url_rejected_witness :
    createArticleGemini [mkArticle ['u'] ['r'] ⟨['t'], [], ['s'], [], 0⟩] ['u'] ['r']
        (some 1) (fun _ => some ⟨['t'], [], ['s'], [], 0⟩) =
      ⟨.alreadyExists, [mkArticle ['u'] ['r'] ⟨['t'], [], ['s'], [], 0⟩], 0⟩ :=
  c5_duplicate_url_rejected [] _ ['u'] ['r'] ['r'] (some 1) (some 1)
    (fun _ => some ⟨['t'], [], ['s'], [], 0⟩) (fun _ => some ⟨['t'], [], ['s'], [], 0⟩)
    _ 1 rfl

/-- Claim C6: after the provider output decodes into the five-field schema,
the result is usable only with non-empty trimmed title and summary: if
either is empty, the Exa pipeline reports the extraction-incomplete
error and inserts nothing, even though decoding succeeded. -/
theorem c6_required_field_validation (db : List Article) (link dateRead : Str)
    (hostname : Option Str) (d : ArticleDetails)
    (hlink : link ≠ []) (hex : articleExists db link = false)
    (hempty : goTrimSpace d.title = [] ∨ goTrimSpace d.summary = []) :
    exaFinalizeDetails link hostname dateRead d = .error ()
    ∧ exaCreateWithDetails db link hostname dateRead d = (.extractionError, db) := by
  have hfin : exaFinalizeDetails link hostname dateRead d = .error () := by
    simp only [exaFinalizeDetails]
    rw [if_pos hempty]
  refine ⟨hfin, ?_⟩
  simp only [exaCreateWithDetails, exaCreateArticle, if_neg hlink, hex,
    Bool.false_eq_true, if_false, hfin]

/-- Instantiation of `c6_required_field_validation` at a decoded
result whose title trims to empty. -/
theorem c6_required_field_validation_witness :
    exaFinalizeDetails ['u'] none ['r'] ⟨[' '], ['a'], ['s'], [], 0⟩ = .error ()
    ∧ exaCreateWithDetails [] ['u'] none ['r'] ⟨[' '], ['a'], ['s'], [], 0⟩
        = (.extractionError, []) :=
  c6_required_field_validation [] ['u'] ['r'] none ⟨[' '], ['a'], ['s'], [], 0⟩
    (by decide) (by decide) (by decide)

/-- Claim C10, amended: whenever the decoded author trims to empty and the
record is persisted, the stored author is `fallbackAuthorFromURL` of
the submitted URL's hostname (`www.` stripped, second-to-last label);
the stored author is empty exactly when the URL does not parse, the
stripped host is empty, or the host splits into at least two labels
whose second-to-last is itself empty. -/
theorem c10_author_fallback (db : List Article) (link dateRead : Str)
    (hostname : Option Str) (d : ArticleDetails)
    (hauthor : goTrimSpace d.author = [])
    (htitle : goTrimSpace d.title ≠ []) (hsummary : goTrimSpace d.summary ≠ [])
    (htype : d.type ≠ -1)
    (hlink : link ≠ []) (hex : articleExists db link = false) :
    (∃ a : Article,
      exaCreateWithDetails db link hostname dateRead d = (.created a, insertArticle db a)
      ∧ a.author = fallbackAuthorFromURL hostname)
    ∧ (∀ h : Str, fallbackAuthorFromURL (some h) = [] ↔
        (hostAfterWWW h = [] ∨
          (2 ≤ (goSplit '.' (hostAfterWWW h)).length ∧
            (goSplit '.' (hostAfterWWW h)).getD
              ((goSplit '.' (hostAfterWWW h)).length - 2) [] = [])))
    ∧ fallbackAuthorFromURL none = [] := by
  refine ⟨?_, ?_, rfl⟩
  · have hfin : exaFinalizeDetails link hostname dateRead d =
        .ok { title := goTrimSpace d.title, author := fallbackAuthorFromURL hostname,
              summary := goTrimSpace d.summary,
              datePublished := goTrimSpace d.datePublished,
              dateRead := dateRead, link := link, type := d.type } := by
      simp only [exaFinalizeDetails, hauthor]
      rw [if_neg (by simp [htitle, hsummary])]
      simp
    refine ⟨{ title := goTrimSpace d.title, author := fallbackAuthorFromURL hostname,
              summary := goTrimSpace d.summary,
              datePublished := goTrimSpace d.datePublished,
              dateRead := dateRead, link := link, type := d.type }, ?_, rfl⟩
    simp only [exaCreateWithDetails, exaCreateArticle, if_neg hlink, hex,
      Bool.false_eq_true, if_false, hfin]
    rw [if_neg htype]
  · intro h
    simp only [fallbackAuthorFromURL]
    by_cases he : hostAfterWWW h = []
    · simp [he]
    · rw [if_neg he]
      by_cases hl : 2 ≤ (goSplit '.' (hostAfterWWW h)).length
      · rw [if_pos hl]
        constructor
        · intro hz; exact Or.inr ⟨hl, hz⟩
        · rintro (hc | ⟨-, hz⟩)
          · exact absurd hc he
          · exact hz
      · rw [if_neg hl]
        constructor
        · intro hz; exact absurd hz he
        · rintro (hc | ⟨h2le, -⟩)
          · exact absurd hc he
          · exact absurd h2le hl

/-- Instantiation of `c10_author_fallback` at host
`blog.railway.com`: the stored author is `railway`. -/
theorem c10_author_fallback_witness :
    ∃ a : Article,
      exaCreateWithDetails [] ['u'] (some ("blog.railway.com".toList)) ['r']
          ⟨['t'], [' '], ['s'], [], 0⟩ = (.created a, insertArticle [] a)
      ∧ a.author = "railway".toList := by
  obtain ⟨⟨a, h1, h2⟩, -, -⟩ := c10_author_fallback [] ['u'] ['r']
    (some ("blog.railway.com".toList)) ⟨['t'], [' '], ['s'], [], 0⟩
    (by decide) (by decide) (by decide) (by decide) (by decide) (by decide)
  exact ⟨a, h1, by rw [h2]; decide⟩

/-- Claim C10 counterexample: for the host `a..b` the URL parses and the
host is non-empty, the decoded author is empty, the record is
persisted — and the stored author is still the empty string, because
the second-to-last dot-separated label of the host is empty. -/
theorem c10_counterexample :
    (exaCreateWithDetails [] ("http://a..b/x".toList) (some ("a..b".toList)) ['r']
        ⟨['t'], [], ['s'], [], 0⟩).1 =
      .created { title := ['t'], author := [], summary := ['s'], datePublished := [],
                 dateRead := ['r'], link := ("http://a..b/x".toList), type := 0 }
    ∧ some ("a..b".toList) ≠ (none : Option Str)
    ∧ ("a..b".toList) ≠ ([] : Str) := by
  decide

theorem goIndexFrom_eq_none {c : Char} : ∀ {s : Str}, c ∉ s → goIndexFrom c s = none := by
  intro s h
  induction s with
  | nil => rfl
  | cons x xs ih =>
    simp only [List.mem_cons, not_or] at h
    simp only [goIndexFrom]
    rw [if_neg (by simp only [beq_iff_eq]; exact fun hh => h.1 hh.symm), ih h.2]
    rfl

theorem goIndexFrom_append_none {c : Char} {s : Str}
    (h : goIndexFrom c s = none) (t : Str) :
    goIndexFrom c (s ++ t) = (goIndexFrom c t).map (· + s.length) := by
  induction s with
  | nil =>
    simp only [List.nil_append, List.length_nil]
    cases goIndexFrom c t <;> simp
  | cons x xs ih =>
    simp only [goIndexFrom] at h ⊢
    by_cases hx : (x == c) = true
    · rw [if_pos hx] at h; cases h
    · rw [if_neg hx] at h ⊢
      have hxs : goIndexFrom c xs = none := by
        cases hz : goIndexFrom c xs
        · rfl
        · rw [hz] at h; cases h
      simp only [List.append_eq]
      rw [ih hxs]
      cases goIndexFrom c t with
      | none => rfl
      | some a => simp [List.length_cons]; omega

theorem goIndexFrom_cons_self (c : Char) (s : Str) : goIndexFrom c (c :: s) = some 0 := by
  simp [goIndexFrom]

theorem extractJSON_sandwich (pre mid suf : Str) (h1 : '{' ∉ pre) (h2 : '}' ∉ suf) :
    extractJSONObjectFromString (pre ++ ('{' :: (mid ++ ['}'])) ++ suf)
      = .ok ('{' :: (mid ++ ['}'])) := by
  have hstart : goIndexFrom '{' (pre ++ ('{' :: (mid ++ ['}'])) ++ suf)
      = some pre.length := by
    rw [List.append_assoc,
      goIndexFrom_append_none (goIndexFrom_eq_none h1),
      List.cons_append, goIndexFrom_cons_self]
    simp
  have hrev : (pre ++ ('{' :: (mid ++ ['}'])) ++ suf).reverse
      = suf.reverse ++ ('}' :: ((mid.reverse ++ ['{']) ++ pre.reverse)) := by
    simp
  have hstop : goIndexFrom '}' (pre ++ ('{' :: (mid ++ ['}'])) ++ suf).reverse
      = some suf.length := by
    rw [hrev, goIndexFrom_append_none (goIndexFrom_eq_none (by simpa using h2)),
      goIndexFrom_cons_self]
    simp
  have hlen : (pre ++ ('{' :: (mid ++ ['}'])) ++ suf).length
      = pre.length + mid.length + 2 + suf.length := by
    simp; omega
  have hidx : goIndex (pre ++ ('{' :: (mid ++ ['}'])) ++ suf) '{'
      = ((pre.length : Nat) : Int) := by
    simp only [goIndex, hstart]
  have hlast : goLastIndex (pre ++ ('{' :: (mid ++ ['}'])) ++ suf) '}'
      = ((pre.length + mid.length + 1 : Nat) : Int) := by
    simp only [goLastIndex, hstop, hlen]
    push_cast
    ring
  simp only [extractJSONObjectFromString, hidx, hlast]
  rw [if_neg (by push_cast; omega)]
  rw [Int.toNat_natCast, Int.toNat_natCast,
    show pre.length + mid.length + 1 + 1 - pre.length = ('{' :: (mid ++ ['}'])).length by
      simp; omega,
    List.append_assoc, List.drop_left, List.take_left]

/-- Claim C1, amended: the response parser takes the substring from the
first `{` to the last `}` inclusive; it recovers exactly the embedded
object whenever the preceding text contains no `{` and the following
text contains no `}`, and the parse result on the noisy blob is then
exactly the decode of that object.  When the text has no `{`, no `}`,
or the last `}` not strictly after the first `{`, parsing fails with
the distinct could-not-locate error and the parse-with-fallback step
consults the answer-based secondary adapter. -/
theorem c1_first_last_brace_extraction (decode : Str → Option ArticleDetails)
    (pre mid suf : Str) (h1 : '{' ∉ pre) (h2 : '}' ∉ suf) :
    (extractJSONObjectFromString (pre ++ ('{' :: (mid ++ ['}'])) ++ suf)
        = .ok ('{' :: (mid ++ ['}'])))
    ∧ (parseExtractedDetailsFromString decode (pre ++ ('{' :: (mid ++ ['}'])) ++ suf)
        = match decode ('{' :: (mid ++ ['}'])) with
          | some d => .ok d
          | none => .error .decodeFail)
    ∧ (∀ (s : Str) (answer : Except Unit Str),
        (goIndex s '{' < 0 ∨ goLastIndex s '}' < 0 ∨ goLastIndex s '}' ≤ goIndex s '{') →
        parseExtractedDetailsFromString decode s = .error .couldNotLocate
        ∧ exaParseWithFallback decode s answer = answerFallback decode answer) := by
  have hx := extractJSON_sandwich pre mid suf h1 h2
  refine ⟨hx, ?_, ?_⟩
  · simp only [parseExtractedDetailsFromString, hx]
    cases decode ('{' :: (mid ++ ['}'])) <;> rfl
  · intro s answer hcond
    have hextract : extractJSONObjectFromString s = .error .couldNotLocate := by
      simp only [extractJSONObjectFromString]
      rw [if_pos hcond]
    have hparse : parseExtractedDetailsFromString decode s = .error .couldNotLocate := by
      simp only [parseExtractedDetailsFromString, hextract]
    exact ⟨hparse, by simp only [exaParseWithFallback, hparse]⟩

/-- The inner text of a concrete five-field JSON object (C1). -/
def c1Mid : Str :=
  "\"title\":\"t\",\"author\":\"a\",\"summary\":\"s\",\"datePublished\":\"2024-01-01\",\"type\":0".toList

/-- A concrete five-field JSON object (C1). -/
def c1Obj : Str := '{' :: (c1Mid ++ ['}'])

/-- A concrete decoder succeeding exactly on `c1Obj` (C1). -/
def c1Decode : Str → Option ArticleDetails :=
  fun s => if s = c1Obj then some ⟨['t'], ['a'], ['s'], "2024-01-01".toList, 0⟩ else none

/-- Instantiation of `c1_first_last_brace_extraction`: the object is
recovered from surrounding prose without stray braces, and a braceless
reply fails with the could-not-locate error. -/
theorem c1_first_last_brace_extraction_witness :
    extractJSONObjectFromString
        (("Sure, here is the JSON you asked for:\n".toList) ++ c1Obj ++
          ("\nHope this helps!".toList)) = .ok c1Obj
    ∧ parseExtractedDetailsFromString c1Decode ("the model returned no json at all".toList)
        = .error .couldNotLocate :=
  ⟨(c1_first_last_brace_extraction c1Decode ("Sure, here is the JSON you asked for:\n".toList)
      c1Mid ("\nHope this helps!".toList) (by decide) (by decide)).1,
   ((c1_first_last_brace_extraction c1Decode ("Sure, here is the JSON you asked for:\n".toList)
      c1Mid ("\nHope this helps!".toList) (by decide) (by decide)).2.2
      ("the model returned no json at all".toList) (.error ()) (by decide)).1⟩

/-- Claim C1 counterexample: a valid five-field JSON object followed by
prose that contains a `}` is not recovered: the extractor returns the
strictly larger first-`{`-to-last-`}` substring, not the object. -/
theorem c1_counterexample :
    extractJSONObjectFromString (c1Obj ++ (" regards, the model ".toList ++ ['}']))
        = .ok (c1Obj ++ (" regards, the model ".toList ++ ['}']))
    ∧ c1Obj ++ (" regards, the model ".toList ++ ['}']) ≠ c1Obj := by
  decide

end ReadingList
